import Mathlib

/-!
Verification of the CAN Financial Solutions client pages.

This file shallowly embeds the browser-side logic of the repository:
the cookie-based session gate shared by the pages, the login form's
`signIn` handler, the prospect page's normalization helpers
(`yesNoNormalize`, `stateToName`, `normText`), its search/filter/sort
pipeline and pagination, its save/load/delete state machine, and the
dashboard's `callRPC` wrapper.  JavaScript strings are modelled through
their character lists; `Array.prototype.sort` is modelled as a stable
merge sort driven by the page's comparator; the browser cookie jar is
modelled as an ordered list of name/value pairs.
-/

namespace Canfs

/-! ### JavaScript string primitives (modelled over character lists) -/

/-- Model of `String.prototype.trim`: drop whitespace from both ends. -/
def jsTrim (s : String) : String :=
  ⟨((s.data.dropWhile Char.isWhitespace).reverse.dropWhile Char.isWhitespace).reverse⟩

/-- Model of `String.prototype.toLowerCase` (ASCII case folding). -/
def jsToLower (s : String) : String := ⟨s.data.map Char.toLower⟩

/-- Model of `String.prototype.toUpperCase` (ASCII case folding). -/
def jsToUpper (s : String) : String := ⟨s.data.map Char.toUpper⟩

/-- Model of `s.includes(sub)`. -/
def jsIncludes (s sub : String) : Bool := decide (sub.data <:+: s.data)

/-- Model of `s.replace(/\D/g, "")` as a character list: keep only decimal digits. -/
def digitsOf (s : String) : List Char := s.data.filter Char.isDigit

/-- Model of the prospect page's `normText`:
`s.trim().toLowerCase().replace(/[‐-―−]/g, "-")`. -/
def normText (s : String) : String :=
  ⟨(jsToLower (jsTrim s)).data.map
    (fun c => if (0x2010 ≤ c.toNat ∧ c.toNat ≤ 0x2015) ∨ c.toNat = 0x2212 then '-' else c)⟩

/-! ### Session cookie gate -/

/-- Model of `document.cookie.split("; ")`: split a character list on the
two-character separator, scanning left to right as JavaScript does. -/
def splitSemiSp : List Char → List (List Char)
  | [] => [[]]
  | [c] => [[c]]
  | a :: b :: rest =>
    if a = ';' ∧ b = ' ' then [] :: splitSemiSp rest
    else
      match splitSemiSp (b :: rest) with
      | [] => [[a]]
      | h :: t => (a :: h) :: t

/-- The cookie-presence check shared by the auth, prospect, dashboard and FNA pages:
`document.cookie.split("; ").some((c) => c.startsWith("canfs_auth=true"))`. -/
def hasAuthCookie (cookie : String) : Bool :=
  (splitSemiSp cookie.data).any (fun e => decide ("canfs_auth=true".data <+: e))

/-- The browser cookie jar: an ordered list of name/value pairs.  The pages only
assign to `document.cookie`; storage semantics belong to the browser. -/
abbrev Jar := List (String × String)

/-- The `name=value` character rendering of one stored cookie. -/
def entryChars (p : String × String) : List Char := p.1.data ++ '=' :: p.2.data

/-- Join entries with the `"; "` separator, as `document.cookie` reads back. -/
def joinSemiSp : List (List Char) → List Char
  | [] => []
  | [e] => e
  | e :: rest => e ++ ';' :: ' ' :: joinSemiSp rest

/-- The string read back from `document.cookie` for a given jar. -/
def renderJar (j : Jar) : String := ⟨joinSemiSp (j.map entryChars)⟩

/-- Effect on the jar of the assignment
`document.cookie = "canfs_auth=true; path=/; max-age=86400; samesite=lax"`
(from `setAuthCookie` and the auth page's `signIn`): the browser upserts the value. -/
def setAuthCookieJar (j : Jar) : Jar :=
  if j.any (fun p => p.1 == "canfs_auth")
  then j.map (fun p => if p.1 == "canfs_auth" then (p.1, "true") else p)
  else j ++ [("canfs_auth", "true")]

/-- Effect on the jar of `clearAuthCookie` (`canfs_auth=; max-age=0`): the browser
removes the cookie. -/
def clearAuthCookieJar (j : Jar) : Jar := j.filter (fun p => !(p.1 == "canfs_auth"))

/-- Well-formedness the browser guarantees for stored cookies: a name contains
no `=` and neither name nor value contains `;`. -/
abbrev WFJar (j : Jar) : Prop :=
  ∀ p ∈ j, ('=' ∉ p.1.data) ∧ (';' ∉ p.1.data) ∧ (';' ∉ p.2.data)

/-- Detects an occurrence of the `"; "` separator inside a character list. -/
def hasSepPair : List Char → Bool
  | [] => false
  | [_] => false
  | a :: b :: rest => (a = ';' && b = ' ') || hasSepPair (b :: rest)

/-! ### Page mount auth effects -/

/-- The prospect page's mount effect: `if (!hasAuthCookie()) router.push("/auth")`. -/
def prospectMountNav (cookie : String) : Option String :=
  if hasAuthCookie cookie then none else some "/auth"

/-- The dashboard page's mount effect: `if (!hasAuthCookie()) router.replace("/login")`. -/
def dashboardMountNav (cookie : String) : Option String :=
  if hasAuthCookie cookie then none else some "/login"

/-- Modelled from the spec: the FNA page's source file in this repository is truncated
before the component body, so its mount-time auth effect is missing from `src/`; the
page's own header comment and the spec state that an absent session redirects to `/auth`. -/
def fnaMountNav (cookie : String) : Option String :=
  if hasAuthCookie cookie then none else some "/auth"

/-! ### Login form -/

/-- One entry of the auth page's `DESTINATIONS` list. -/
structure Destination where
  value : String
  label : String
  path : String
deriving DecidableEq

/-- The auth page's `DESTINATIONS` constant. -/
def DESTINATIONS : List Destination :=
  [⟨"dashboard", "Dashboard", "/dashboard"⟩,
   ⟨"fna", "Financial Need Analysis", "/fna"⟩,
   ⟨"prospect", "Prospect List", "/prospect"⟩]

/-- Result of a `signIn` submission: error banner, resulting cookie jar, navigation. -/
structure SignInOutcome where
  errorOut : Option String
  jar : Jar
  nav : Option String
deriving DecidableEq

/-- Model of `signIn` from `app/auth/page.tsx`: reject empty fields with an error and
no navigation; otherwise set the auth cookie and `router.replace` to the path of the
destination selected in the `Go to` selector (defaulting to `/dashboard`). -/
def signIn (email password destination : String) (jar : Jar) : SignInOutcome :=
  if email = "" ∨ password = "" then
    { errorOut := some "Please enter email and password", jar := jar, nav := none }
  else
    { errorOut := none
      jar := setAuthCookieJar jar
      nav := some (((DESTINATIONS.find? (fun d => d.value == destination)).map
        Destination.path).getD "/dashboard") }

/-! ### Prospect records and forms -/

/-- The prospect page's `Prospect` row type (`string | null` fields as `Option String`). -/
structure Prospect where
  id : Int
  first_name : String
  last_name : Option String
  spouse_name : Option String
  relation_type : Option String
  phone : Option String
  city : Option String
  state : Option String
  top25 : Option String
  immigration : Option String
  age25plus : Option String
  married : Option String
  children : Option String
  homeowner : Option String
  good_career : Option String
  income_60k : Option String
  dissatisfied : Option String
  ambitious : Option String
  contact_date : Option String
  result : Option String
  next_steps : Option String
  comments : Option String
  created_at : Option String
  updated_at : Option String
deriving DecidableEq

/-- The prospect page's `ProspectForm` type: all fields plain strings. -/
structure ProspectForm where
  first_name : String
  last_name : String
  spouse_name : String
  relation_type : String
  phone : String
  city : String
  state : String
  top25 : String
  immigration : String
  age25plus : String
  married : String
  children : String
  homeowner : String
  good_career : String
  income_60k : String
  dissatisfied : String
  ambitious : String
  contact_date : String
  result : String
  next_steps : String
  comments : String
deriving DecidableEq

/-- The prospect page's `emptyForm()`. -/
def emptyForm : ProspectForm :=
  ⟨"", "", "", "", "", "", "", "", "", "", "", "", "", "", "", "", "", "", "", "", ""⟩

/-- The prospect page's `toNull`: trim, and map the empty string to `null`. -/
def toNull (s : String) : Option String :=
  if jsTrim s = "" then none else some (jsTrim s)

/-- The row payload built by `saveNew` / `saveEdit` from the form. -/
structure RowPayload where
  first_name : String
  last_name : Option String
  spouse_name : Option String
  relation_type : Option String
  phone : Option String
  city : Option String
  state : Option String
  top25 : Option String
  immigration : Option String
  age25plus : Option String
  married : Option String
  children : Option String
  homeowner : Option String
  good_career : Option String
  income_60k : Option String
  dissatisfied : Option String
  ambitious : Option String
  contact_date : Option String
  result : Option String
  next_steps : Option String
  comments : Option String
deriving DecidableEq

/-- The insert/update payload of `saveNew` and `saveEdit`: `first_name` trimmed,
every other field through `toNull`. -/
def payloadOfForm (f : ProspectForm) : RowPayload :=
  { first_name := jsTrim f.first_name
    last_name := toNull f.last_name
    spouse_name := toNull f.spouse_name
    relation_type := toNull f.relation_type
    phone := toNull f.phone
    city := toNull f.city
    state := toNull f.state
    top25 := toNull f.top25
    immigration := toNull f.immigration
    age25plus := toNull f.age25plus
    married := toNull f.married
    children := toNull f.children
    homeowner := toNull f.homeowner
    good_career := toNull f.good_career
    income_60k := toNull f.income_60k
    dissatisfied := toNull f.dissatisfied
    ambitious := toNull f.ambitious
    contact_date := toNull f.contact_date
    result := toNull f.result
    next_steps := toNull f.next_steps
    comments := toNull f.comments }

/-- The prospect page's `requiredFilled`:
`!!form.first_name.trim() && !!form.last_name.trim() && !!form.phone.trim()`. -/
def requiredFilled (f : ProspectForm) : Bool :=
  !(jsTrim f.first_name == "") && !(jsTrim f.last_name == "") && !(jsTrim f.phone == "")

/-! ### Normalization helpers of the prospect page -/

/-- The prospect page's `yesNoNormalize` (the two final `yes` / `no` re-checks are
kept from the source although unreachable). -/
def yesNoNormalize (v : Option String) : String :=
  let raw := jsTrim (v.getD "")
  let s := jsToLower raw
  if s = "" then ""
  else if s = "y" ∨ s = "yes" ∨ s = "true" then "Yes"
  else if s = "n" ∨ s = "no" ∨ s = "false" then "No"
  else if s = "yes" then "Yes"
  else if s = "no" then "No"
  else raw

/-- One entry of the prospect page's `STATES` table. -/
structure StateEntry where
  abbr : String
  name : String
deriving DecidableEq

/-- The prospect page's `STATES` table. -/
def STATES : List StateEntry :=
  [⟨"AL", "Alabama"⟩, ⟨"AK", "Alaska"⟩, ⟨"AZ", "Arizona"⟩, ⟨"AR", "Arkansas"⟩,
   ⟨"CA", "California"⟩, ⟨"CO", "Colorado"⟩, ⟨"CT", "Connecticut"⟩, ⟨"DE", "Delaware"⟩,
   ⟨"DC", "District of Columbia"⟩, ⟨"FL", "Florida"⟩, ⟨"GA", "Georgia"⟩, ⟨"HI", "Hawaii"⟩,
   ⟨"ID", "Idaho"⟩, ⟨"IL", "Illinois"⟩, ⟨"IN", "Indiana"⟩, ⟨"IA", "Iowa"⟩,
   ⟨"KS", "Kansas"⟩, ⟨"KY", "Kentucky"⟩, ⟨"LA", "Louisiana"⟩, ⟨"ME", "Maine"⟩,
   ⟨"MD", "Maryland"⟩, ⟨"MA", "Massachusetts"⟩, ⟨"MI", "Michigan"⟩, ⟨"MN", "Minnesota"⟩,
   ⟨"MS", "Mississippi"⟩, ⟨"MO", "Missouri"⟩, ⟨"MT", "Montana"⟩, ⟨"NE", "Nebraska"⟩,
   ⟨"NV", "Nevada"⟩, ⟨"NH", "New Hampshire"⟩, ⟨"NJ", "New Jersey"⟩, ⟨"NM", "New Mexico"⟩,
   ⟨"NY", "New York"⟩, ⟨"NC", "North Carolina"⟩, ⟨"ND", "North Dakota"⟩, ⟨"OH", "Ohio"⟩,
   ⟨"OK", "Oklahoma"⟩, ⟨"OR", "Oregon"⟩, ⟨"PA", "Pennsylvania"⟩, ⟨"RI", "Rhode Island"⟩,
   ⟨"SC", "South Carolina"⟩, ⟨"SD", "South Dakota"⟩, ⟨"TN", "Tennessee"⟩, ⟨"TX", "Texas"⟩,
   ⟨"UT", "Utah"⟩, ⟨"VT", "Vermont"⟩, ⟨"VA", "Virginia"⟩, ⟨"WA", "Washington"⟩,
   ⟨"WV", "West Virginia"⟩, ⟨"WI", "Wisconsin"⟩, ⟨"WY", "Wyoming"⟩]

/-- Model of JavaScript `s.split(c)` on a single-character separator. -/
def splitCh (c : Char) : List Char → List (List Char)
  | [] => [[]]
  | a :: rest =>
    if a = c then [] :: splitCh c rest
    else
      match splitCh c rest with
      | [] => [[a]]
      | h :: t => (a :: h) :: t

/-- `raw.split("-").slice(-1)[0]?.trim()` from `stateToName`: the trimmed text after
the last hyphen. -/
def lastDashPart (raw : String) : String :=
  jsTrim ⟨((splitCh '-' raw.data).getLast?).getD []⟩

/-- The prospect page's `stateToName`.  Note the source only returns the
after-hyphen part when it is non-empty (`if (part) return part;`); otherwise it
falls through to the abbreviation lookup on the raw value. -/
def stateToName (v : Option String) : String :=
  let raw := jsTrim (v.getD "")
  if raw = "" then ""
  else if ('-' ∈ raw.data) ∧ lastDashPart raw ≠ "" then lastDashPart raw
  else
    match STATES.find? (fun st => st.abbr == jsToUpper raw) with
    | some st => st.name
    | none => raw

/-! ### Prospect list search, filter and sort -/

/-- The search predicate inside the prospect page's `filtered` memo. -/
def matchesSearch (search : String) (p : Prospect) : Bool :=
  let norm := normText search
  let searchDigits := digitsOf search
  let textMatch :=
    jsIncludes (normText p.first_name) norm ||
    jsIncludes (normText (p.last_name.getD "")) norm ||
    jsIncludes (normText (p.spouse_name.getD "")) norm ||
    jsIncludes (normText (p.phone.getD "")) norm
  let phoneMatch :=
    decide (0 < searchDigits.length) &&
    decide (searchDigits <:+: digitsOf (p.phone.getD ""))
  textMatch || phoneMatch

/-- The comparator's `Dissatisfied=Yes AND Ambitious=Yes` test (also used for row
highlighting). -/
def isProspectRec (p : Prospect) : Bool :=
  (p.dissatisfied == some "Yes" || p.dissatisfied == some "Y") &&
  (p.ambitious == some "Yes" || p.ambitious == some "Y")

/-- The comparator's `next_steps === "Closed"` test. -/
def isClosedRec (p : Prospect) : Bool := p.next_steps == some "Closed"

/-- Sortable column keys of a `Prospect` row. -/
inductive PKey where
  | id | first_name | last_name | spouse_name | relation_type | phone | city | state
  | top25 | immigration | age25plus | married | children | homeowner | good_career
  | income_60k | dissatisfied | ambitious | contact_date | result | next_steps
  | comments | created_at | updated_at
deriving DecidableEq

/-- A JavaScript field value: a number or a string. -/
abbrev JsVal := Sum Int String

/-- Field access `p[key]`, `null`/`undefined` as `none`. -/
def fieldVal (p : Prospect) : PKey → Option JsVal
  | .id => some (.inl p.id)
  | .first_name => some (.inr p.first_name)
  | .last_name => p.last_name.map .inr
  | .spouse_name => p.spouse_name.map .inr
  | .relation_type => p.relation_type.map .inr
  | .phone => p.phone.map .inr
  | .city => p.city.map .inr
  | .state => p.state.map .inr
  | .top25 => p.top25.map .inr
  | .immigration => p.immigration.map .inr
  | .age25plus => p.age25plus.map .inr
  | .married => p.married.map .inr
  | .children => p.children.map .inr
  | .homeowner => p.homeowner.map .inr
  | .good_career => p.good_career.map .inr
  | .income_60k => p.income_60k.map .inr
  | .dissatisfied => p.dissatisfied.map .inr
  | .ambitious => p.ambitious.map .inr
  | .contact_date => p.contact_date.map .inr
  | .result => p.result.map .inr
  | .next_steps => p.next_steps.map .inr
  | .comments => p.comments.map .inr
  | .created_at => p.created_at.map .inr
  | .updated_at => p.updated_at.map .inr

/-- The page's `sortConfig` state: selected column (or none) and direction. -/
structure SortConfig where
  key : Option PKey
  asc : Bool
deriving DecidableEq

/-- JavaScript `String(v)` on a field value. -/
def jsValStr : JsVal → String
  | .inl n => toString n
  | .inr s => s

/-- The tie-breaking tail of the comparator: the selected column (nulls pushed to the
end in ascending order, `localeCompare` for strings — passed in as `lc` —, subtraction
for numbers), or descending id when no column is selected. -/
def cmpTie (lc : String → String → Int) (cfg : SortConfig) (a b : Prospect) : Int :=
  match cfg.key with
  | none => b.id - a.id
  | some k =>
    match fieldVal a k, fieldVal b k with
    | none, _ => if cfg.asc then 1 else -1
    | some _, none => if cfg.asc then -1 else 1
    | some (.inr s1), some (.inr s2) => if cfg.asc then lc s1 s2 else -(lc s1 s2)
    | some (.inl n1), some (.inl n2) => if cfg.asc then n1 - n2 else n2 - n1
    | some v1, some v2 =>
      if cfg.asc then lc (jsValStr v1) (jsValStr v2) else -(lc (jsValStr v1) (jsValStr v2))

/-- The full comparator passed to `arr.sort` in the `filtered` memo: prospect rows
first, closed rows last, then the tie-break. -/
def cmpRecords (lc : String → String → Int) (cfg : SortConfig) (a b : Prospect) : Int :=
  if isProspectRec a && !isProspectRec b then -1
  else if !isProspectRec a && isProspectRec b then 1
  else if isClosedRec a && !isClosedRec b then 1
  else if !isClosedRec a && isClosedRec b then -1
  else cmpTie lc cfg a b

/-- `a` may stay before `b` under the comparator (comparator value at most zero). -/
def sortLE (lc : String → String → Int) (cfg : SortConfig) (a b : Prospect) : Bool :=
  decide (cmpRecords lc cfg a b ≤ 0)

/-- Stable two-way merge driven by a boolean comparator. -/
def mergeL {α : Type} (r : α → α → Bool) : List α → List α → List α
  | [], ys => ys
  | x :: xs, [] => x :: xs
  | x :: xs, y :: ys =>
    if r x y then x :: mergeL r xs (y :: ys) else y :: mergeL r (x :: xs) ys
termination_by a b => a.length + b.length

/-- Stable merge sort: the model of `Array.prototype.sort` with a comparator. -/
def msort {α : Type} (r : α → α → Bool) (l : List α) : List α :=
  if l.length ≤ 1 then l
  else
    mergeL r (msort r (l.take (l.length / 2))) (msort r (l.drop (l.length / 2)))
termination_by l.length
decreasing_by
  · simp only [List.length_take]; omega
  · simp only [List.length_drop]; omega

/-- The prospect page's `filtered` memo: text search, result filter, then sort. -/
def filteredPipeline (lc : String → String → Int) (records : List Prospect)
    (search resFilter : String) (cfg : SortConfig) : List Prospect :=
  let arr1 := if jsTrim search = "" then records else records.filter (matchesSearch search)
  let arr2 :=
    if resFilter = "ALL" then arr1
    else arr1.filter (fun p => jsTrim (p.result.getD "") == resFilter)
  msort (sortLE lc cfg) arr2

/-- Priority rank induced by the comparator's two leading tests: prospect rows
(rank 0/1) before the rest (rank 2/3), closed rows last within each group. -/
def rank (p : Prospect) : Nat :=
  (if isProspectRec p then 0 else 2) + (if isClosedRec p then 1 else 0)

/-- A sample prospect row, used as concrete input in witnesses. -/
def sampleRecord : Prospect :=
  ⟨1, "Alice", some "Smith", none, none, some "(555) 123-4567", none, none, none, none,
   none, none, none, none, none, none, some "Yes", some "Y", none, none, none, none,
   none, none⟩

/-! ### Pagination -/

/-- The prospect page's `PAGE_SIZE`. -/
def PAGE_SIZE : Nat := 10

/-- `Math.max(1, Math.ceil(filtered.length / PAGE_SIZE))`. -/
def totalPages (n : Nat) : Nat := max 1 ((n + PAGE_SIZE - 1) / PAGE_SIZE)

/-- `Math.min(page, totalPages)`. -/
def safePage (page n : Nat) : Nat := min page (totalPages n)

/-- The `pageRows` memo: `filtered.slice((safePage - 1) * PAGE_SIZE, ... + PAGE_SIZE)`. -/
def pageRows (l : List Prospect) (page : Nat) : List Prospect :=
  (l.drop ((safePage page l.length - 1) * PAGE_SIZE)).take PAGE_SIZE

/-- Page numbers reachable through the page state: initial value 1, the resets to 1
(search change, filter change, refresh), the Previous button `max(1, p - 1)` and the
Next button `min(totalPages, p + 1)` (against whatever positive page total the click
saw). -/
inductive PageReachable : Nat → Prop where
  | start : PageReachable 1
  | reset {p : Nat} : PageReachable p → PageReachable 1
  | prevClick {p : Nat} : PageReachable p → PageReachable (max 1 (p - 1))
  | nextClick {p tp : Nat} : 1 ≤ tp → PageReachable p → PageReachable (min tp (p + 1))

/-! ### Prospect page state machine and backend interaction -/

/-- A backend request issued by the prospect page. -/
inductive Req where
  | selectAll
  | insertRow (payload : RowPayload)
  | updateRow (id : Int) (payload : RowPayload)
  | deleteRow (id : Int)
deriving DecidableEq

/-- A backend response: rows, or an error with a message. -/
inductive BResp where
  | ok (rows : List Prospect)
  | err (msg : String)
deriving DecidableEq

/-- The slice of the prospect page's component state the operations touch.
`timeouts` records the scheduled `setTimeout` delays (milliseconds). -/
structure PState where
  prospects : List Prospect
  loading : Bool
  saving : Bool
  showCard : Bool
  editMode : Bool
  activeId : Option Int
  original : Option Prospect
  form : ProspectForm
  errorMsg : Option String
  successMsg : Option String
  timeouts : List Nat
deriving DecidableEq

/-- The page's `setToast`: show one banner, clear the other, and schedule a
5000 ms clear. -/
def setToast (isError : Bool) (msg : String) (st : PState) : PState :=
  if isError then
    { st with errorMsg := some msg, successMsg := none, timeouts := st.timeouts ++ [5000] }
  else
    { st with successMsg := some msg, errorMsg := none, timeouts := st.timeouts ++ [5000] }

/-- The page's `loadProspects`, returning the next state and the backend requests
issued (in order). -/
def loadProspects (oracle : Req → BResp) (st : PState) : PState × List Req :=
  let st1 := { st with loading := true, errorMsg := none }
  match oracle .selectAll with
  | .err m =>
    let st2 := setToast true ("Error loading prospects: " ++ m) st1
    ({ st2 with prospects := [], loading := false }, [.selectAll])
  | .ok rows => ({ st1 with prospects := rows, loading := false }, [.selectAll])

/-- The required-fields toast text. -/
def missingMsg : String := "Missing required fields (First Name, Last Name, Phone)."

/-- The out-of-sync-sequence toast text of `saveNew`. -/
def seqMsg : String :=
  "Database error: ID sequence out of sync. Please contact administrator to reset the sequence."

/-- The page's `saveNew`. -/
def saveNew (oracle : Req → BResp) (st : PState) : PState × List Req :=
  if st.saving then (st, [])
  else if !(requiredFilled st.form) then (setToast true missingMsg st, [])
  else
    let st1 := { st with saving := true, errorMsg := none }
    let payload := payloadOfForm st.form
    match oracle (.insertRow payload) with
    | .err m =>
      let st2 := { st1 with saving := false }
      if jsIncludes m "duplicate key" || jsIncludes m "prospects_pkey" then
        (setToast true seqMsg st2, [.insertRow payload])
      else
        (setToast true ("Error saving: " ++ m) st2, [.insertRow payload])
    | .ok _ =>
      let st2 := setToast false "Saved." { st1 with saving := false }
      let st3 := { st2 with showCard := false, editMode := false, activeId := none,
                            original := none, form := emptyForm }
      let res := loadProspects oracle st3
      (res.1, .insertRow payload :: res.2)

/-- The page's `saveEdit`. -/
def saveEdit (oracle : Req → BResp) (st : PState) : PState × List Req :=
  if st.saving then (st, [])
  else if !(requiredFilled st.form) then (setToast true missingMsg st, [])
  else
    match st.activeId with
    | none => (st, [])
    | some i =>
      let st1 := { st with saving := true, errorMsg := none }
      let payload := payloadOfForm st.form
      match oracle (.updateRow i payload) with
      | .err m =>
        (setToast true ("Error updating: " ++ m) { st1 with saving := false },
         [.updateRow i payload])
      | .ok _ =>
        let st2 := setToast false "Updated." { st1 with saving := false }
        let res := loadProspects oracle st2
        ({ res.1 with showCard := false }, .updateRow i payload :: res.2)

/-- The page's `handleDelete` (the `confirm` dialog answer passed in). -/
def deleteProspect (oracle : Req → BResp) (confirmed : Bool) (st : PState) :
    PState × List Req :=
  if st.saving then (st, [])
  else
    match st.activeId with
    | none => (setToast true "Select a row first." st, [])
    | some i =>
      if !confirmed then (st, [])
      else
        let st1 := { st with saving := true, errorMsg := none }
        match oracle (.deleteRow i) with
        | .err m =>
          (setToast true ("Error deleting: " ++ m) { st1 with saving := false },
           [.deleteRow i])
        | .ok _ =>
          let st2 := setToast false "Deleted." { st1 with saving := false }
          let st3 := { st2 with showCard := false, activeId := none, original := none,
                                form := emptyForm }
          let res := loadProspects oracle st3
          (res.1, .deleteRow i :: res.2)

/-- Model of the dashboard's `callRPC`: a backend error is only logged to the console
and `null` is returned; no message state is touched.  The first component is the
returned data, the second the banner update the call performs (always `none`). -/
def callRPC {A : Type} (resp : Except String A) : Option A × Option String :=
  match resp with
  | .error _ => (none, none)
  | .ok d => (some d, none)

/-- Model of the dashboard `handleUpdateRow` failure surface: when the update RPC
fails, `callRPC` yields `null`, the `if (!result) throw` guard fires, and the catch
shows a blocking alert.  The page's banner state is untouched and no clearing
timeout is scheduled (components: alert text, banner update, scheduled timeouts). -/
def handleUpdateRowErrSurface {A : Type} (resp : Except String A) :
    Option String × Option String × List Nat :=
  match (callRPC resp).1 with
  | none => (some "Failed to update. Please try again.", none, [])
  | some _ => (none, none, [])

/-- Model of the dashboard `loadData` catch: an exception sets the error screen's
message with no clearing timeout scheduled (the screen's Retry button is
user-initiated).  Components: banner update, scheduled timeouts. -/
def loadDataCatch (failed : Bool) : Option String × List Nat :=
  if failed then (some "Error loading data. Please try again.", []) else (none, [])

/-- A backend oracle that fails every request, used as concrete input in witnesses. -/
def errOracle : Req → BResp := fun _ => BResp.err "boom"

/-- A backend oracle failing with a duplicate-key message, used in witnesses. -/
def dupOracle : Req → BResp :=
  fun _ => BResp.err "duplicate key value violates unique constraint"

/-- A form with the three required fields filled, used as concrete input in witnesses. -/
def sampleFormFilled : ProspectForm :=
  ⟨"Ann", "Lee", "", "", "555", "", "", "", "", "", "", "", "", "", "", "", "", "", "",
   "", ""⟩

/-- An idle page state with an empty form, used as concrete input in witnesses. -/
def sampleState : PState :=
  ⟨[], false, false, false, false, none, none, emptyForm, none, none, []⟩

/-- An idle page state with the required fields filled, used in witnesses. -/
def sampleStateFilled : PState :=
  { sampleState with form := sampleFormFilled, activeId := some 1 }

end Canfs

namespace Canfs

/-! ### Cookie string lemmas -/

theorem hasSepPair_eq_false {e : List Char} (h : ';' ∉ e) : hasSepPair e = false := by
  induction e with
  | nil => rfl
  | cons a rest ih =>
    cases rest with
    | nil => rfl
    | cons b r2 =>
      have ha : ¬(a = ';') := fun hc => h (hc ▸ List.mem_cons_self a _)
      have hrest : ';' ∉ b :: r2 := fun hm => h (List.mem_cons_of_mem a hm)
      simp [hasSepPair, ha, ih hrest]

theorem splitSemiSp_sepFree {e : List Char} (h : hasSepPair e = false) :
    splitSemiSp e = [e] := by
  induction e with
  | nil => rfl
  | cons a rest ih =>
    cases rest with
    | nil => rfl
    | cons b r2 =>
      have h2 : ((a = ';' && b = ' ') || hasSepPair (b :: r2)) = false := h
      rw [Bool.or_eq_false_iff] at h2
      have hcond : ¬(a = ';' ∧ b = ' ') := by
        intro ⟨h3, h4⟩
        simp [h3, h4] at h2
      simp [splitSemiSp, hcond, ih h2.2]

theorem splitSemiSp_append {e : List Char} (r : List Char) (h : hasSepPair e = false) :
    splitSemiSp (e ++ ';' :: ' ' :: r) = e :: splitSemiSp r := by
  induction e with
  | nil => simp [splitSemiSp]
  | cons a rest ih =>
    cases rest with
    | nil =>
      have hcond : ¬(a = ';' ∧ (';' : Char) = ' ') := by
        rintro ⟨-, h2⟩
        exact absurd h2 (by decide)
      simp [splitSemiSp, hcond]
    | cons b r2 =>
      have h2 : ((a = ';' && b = ' ') || hasSepPair (b :: r2)) = false := h
      rw [Bool.or_eq_false_iff] at h2
      have hcond : ¬(a = ';' ∧ b = ' ') := by
        intro ⟨h3, h4⟩
        simp [h3, h4] at h2
      have := ih h2.2
      simp only [List.cons_append] at this ⊢
      simp [splitSemiSp, hcond, this]

theorem splitSemiSp_join {es : List (List Char)} (hne : es ≠ [])
    (hall : ∀ e ∈ es, hasSepPair e = false) :
    splitSemiSp (joinSemiSp es) = es := by
  induction es with
  | nil => exact absurd rfl hne
  | cons e rest ih =>
    cases rest with
    | nil =>
      simpa [joinSemiSp] using splitSemiSp_sepFree (hall e (List.mem_cons_self e _))
    | cons e2 r2 =>
      have h1 : joinSemiSp (e :: e2 :: r2) = e ++ ';' :: ' ' :: joinSemiSp (e2 :: r2) := rfl
      rw [h1, splitSemiSp_append _ (hall e (List.mem_cons_self e _)),
        ih (by simp) (fun x hx => hall x (List.mem_cons_of_mem e hx))]

theorem eq_align : ∀ (a n b v : List Char), '=' ∉ a → '=' ∉ n →
    (a ++ '=' :: b) <+: (n ++ '=' :: v) → a = n ∧ b <+: v := by
  intro a
  induction a with
  | nil =>
    intro n b v _ hn hp
    cases n with
    | nil =>
      obtain ⟨t, ht⟩ := hp
      simp only [List.nil_append, List.cons_append, List.cons.injEq] at ht
      exact ⟨rfl, t, ht.2⟩
    | cons c n2 =>
      exfalso
      obtain ⟨t, ht⟩ := hp
      simp only [List.nil_append, List.cons_append, List.cons.injEq] at ht
      exact hn (ht.1 ▸ List.mem_cons_self c n2)
  | cons x a2 ih =>
    intro n b v hx hn hp
    cases n with
    | nil =>
      exfalso
      obtain ⟨t, ht⟩ := hp
      simp only [List.cons_append, List.nil_append, List.cons.injEq] at ht
      exact hx (ht.1 ▸ List.mem_cons_self x a2)
    | cons c n2 =>
      obtain ⟨t, ht⟩ := hp
      simp only [List.cons_append, List.cons.injEq] at ht
      obtain ⟨hxc, hrest⟩ := ht
      have : a2 = n2 ∧ b <+: v := by
        refine ih n2 b v (fun hm => hx (List.mem_cons_of_mem x hm))
          (fun hm => hn (List.mem_cons_of_mem c hm)) ⟨t, ?_⟩
        simpa using hrest
      exact ⟨by rw [hxc, this.1], this.2⟩

theorem pat_decomp : "canfs_auth=true".data = "canfs_auth".data ++ '=' :: "true".data := by
  decide

theorem wf_entry_sepFree {j : Jar} (wf : WFJar j) {p : String × String} (hp : p ∈ j) :
    hasSepPair (entryChars p) = false := by
  obtain ⟨-, h2, h3⟩ := wf p hp
  refine hasSepPair_eq_false ?_
  intro hm
  rcases List.mem_append.1 hm with hm | hm
  · exact h2 hm
  · rcases List.mem_cons.1 hm with hm | hm
    · exact absurd hm (by decide)
    · exact h3 hm

theorem hasAuth_render_iff {j : Jar} (wf : WFJar j) :
    hasAuthCookie (renderJar j) = true ↔
      ∃ p ∈ j, p.1 = "canfs_auth" ∧ "true".data <+: p.2.data := by
  by_cases hj : j = []
  · subst hj
    constructor
    · intro h
      exact absurd h (by decide)
    · rintro ⟨p, hp, -⟩
      exact absurd hp (List.not_mem_nil p)
  · have hdata : (renderJar j).data = joinSemiSp (j.map entryChars) := rfl
    have hmapne : j.map entryChars ≠ [] := by
      simpa using hj
    have hsplit : splitSemiSp (joinSemiSp (j.map entryChars)) = j.map entryChars :=
      splitSemiSp_join hmapne (by
        intro e he
        obtain ⟨p, hp, rfl⟩ := List.mem_map.1 he
        exact wf_entry_sepFree wf hp)
    unfold hasAuthCookie
    rw [hdata, hsplit, List.any_eq_true]
    constructor
    · rintro ⟨e, he, hpre⟩
      obtain ⟨p, hp, rfl⟩ := List.mem_map.1 he
      rw [decide_eq_true_iff] at hpre
      rw [pat_decomp] at hpre
      have halign := eq_align _ _ _ _ (by decide) (wf p hp).1 hpre
      exact ⟨p, hp, (String.ext halign.1).symm, halign.2⟩
    · rintro ⟨p, hp, hname, t, ht⟩
      refine ⟨entryChars p, List.mem_map_of_mem entryChars hp, ?_⟩
      rw [decide_eq_true_iff, pat_decomp]
      refine ⟨t, ?_⟩
      show "canfs_auth".data ++ '=' :: "true".data ++ t = entryChars p
      unfold entryChars
      rw [hname]
      simp [ht]

theorem wf_set {j : Jar} (wf : WFJar j) : WFJar (setAuthCookieJar j) := by
  intro p hp
  unfold setAuthCookieJar at hp
  split at hp
  · obtain ⟨q, hq, rfl⟩ := List.mem_map.1 hp
    split
    · exact ⟨(wf q hq).1, (wf q hq).2.1, show ';' ∉ "true".data by decide⟩
    · exact wf q hq
  · rcases List.mem_append.1 hp with hp | hp
    · exact wf p hp
    · rcases List.mem_singleton.1 hp with rfl
      exact ⟨by decide, by decide, by decide⟩

theorem set_mem (j : Jar) :
    ∃ p ∈ setAuthCookieJar j, p.1 = "canfs_auth" ∧ "true".data <+: p.2.data := by
  unfold setAuthCookieJar
  split
  · next h =>
    obtain ⟨q, hq, hbeq⟩ := List.any_eq_true.1 h
    have hname : q.1 = "canfs_auth" := by simpa using hbeq
    refine ⟨(q.1, "true"), ?_, hname, List.prefix_refl _⟩
    refine List.mem_map.2 ⟨q, hq, ?_⟩
    simp [hbeq]
  · exact ⟨("canfs_auth", "true"), List.mem_append_right _ (List.mem_singleton.2 rfl),
      rfl, List.prefix_refl _⟩

theorem hasAuth_set {j : Jar} (wf : WFJar j) :
    hasAuthCookie (renderJar (setAuthCookieJar j)) = true :=
  (hasAuth_render_iff (wf_set wf)).2 (set_mem j)

theorem wf_clear {j : Jar} (wf : WFJar j) : WFJar (clearAuthCookieJar j) :=
  fun p hp => wf p (List.mem_of_mem_filter hp)

theorem hasAuth_clear {j : Jar} (wf : WFJar j) :
    hasAuthCookie (renderJar (clearAuthCookieJar j)) = false := by
  rw [← Bool.not_eq_true, hasAuth_render_iff (wf_clear wf)]
  rintro ⟨p, hp, hname, -⟩
  have := List.of_mem_filter hp
  simp [hname] at this

/-- C8: after `setAuthCookie`, `hasAuthCookie` reads true; after `clearAuthCookie`
it reads false; and `hasAuthCookie` is true exactly when some `"; "`-separated entry
of the cookie string begins with the literal `canfs_auth=true`. -/
theorem c8_auth_cookie_roundtrip (j : Jar) (wf : WFJar j) :
    hasAuthCookie (renderJar (setAuthCookieJar j)) = true ∧
    hasAuthCookie (renderJar (clearAuthCookieJar j)) = false ∧
    (∀ s : String, hasAuthCookie s = true ↔
      ∃ e ∈ splitSemiSp s.data, "canfs_auth=true".data <+: e) := by
  refine ⟨hasAuth_set wf, hasAuth_clear wf, ?_⟩
  intro s
  unfold hasAuthCookie
  rw [List.any_eq_true]
  constructor
  · rintro ⟨e, he, hd⟩
    exact ⟨e, he, decide_eq_true_iff.1 hd⟩
  · rintro ⟨e, he, hd⟩
    exact ⟨e, he, decide_eq_true_iff.2 hd⟩

/-- Witness for C8 at the concrete jar `[("a", "b")]`. -/
theorem c8_witness :
    hasAuthCookie (renderJar (setAuthCookieJar [("a", "b")])) = true ∧
    hasAuthCookie (renderJar (clearAuthCookieJar [("a", "b")])) = false := by
  have h := c8_auth_cookie_roundtrip [("a", "b")] (by decide)
  exact ⟨h.1, h.2.1⟩

/-- C1: with no auth cookie, the prospect page and the (spec-modelled) FNA page
redirect to `/auth`, but the dashboard page navigates to `/login` instead of the
login route `/auth`, contradicting the claim; with a cookie present, no page
navigates. -/
theorem c1_dashboard_redirect_target :
    hasAuthCookie "" = false ∧
    dashboardMountNav "" = some "/login" ∧
    dashboardMountNav "" ≠ some "/auth" ∧
    prospectMountNav "" = some "/auth" ∧
    fnaMountNav "" = some "/auth" ∧
    dashboardMountNav "canfs_auth=true" = none ∧
    prospectMountNav "canfs_auth=true" = none ∧
    fnaMountNav "canfs_auth=true" = none := by
  decide

/-- C2: with both fields non-empty, `signIn` sets the `canfs_auth=true` cookie and
navigates to the selected destination's path (`dashboard` to `/dashboard`, `fna` to
`/fna`, `prospect` to `/prospect`); with an empty field it leaves the jar untouched
and does not navigate. -/
theorem c2_signin_behavior (email password destination : String) (jar : Jar)
    (wf : WFJar jar) :
    (email ≠ "" → password ≠ "" →
      hasAuthCookie (renderJar (signIn email password destination jar).jar) = true ∧
      (destination = "dashboard" →
        (signIn email password destination jar).nav = some "/dashboard") ∧
      (destination = "fna" →
        (signIn email password destination jar).nav = some "/fna") ∧
      (destination = "prospect" →
        (signIn email password destination jar).nav = some "/prospect")) ∧
    ((email = "" ∨ password = "") →
      (signIn email password destination jar).jar = jar ∧
      (signIn email password destination jar).nav = none) := by
  constructor
  · intro he hp
    have hcond : ¬(email = "" ∨ password = "") := by
      rintro (h | h)
      · exact he h
      · exact hp h
    refine ⟨?_, ?_, ?_, ?_⟩
    · simp only [signIn, hcond, if_false]
      exact hasAuth_set wf
    · rintro rfl
      simp [signIn, hcond, DESTINATIONS, List.find?]
    · rintro rfl
      simp [signIn, hcond, DESTINATIONS, List.find?]
    · rintro rfl
      simp [signIn, hcond, DESTINATIONS, List.find?]
  · intro hor
    simp [signIn, hor]

/-- Witness for C2: concrete credentials `"a"` / `"b"`, each destination, and the
empty-field case, on the empty jar. -/
theorem c2_witness :
    hasAuthCookie (renderJar (signIn "a" "b" "fna" []).jar) = true ∧
    (signIn "a" "b" "fna" []).nav = some "/fna" ∧
    (signIn "a" "b" "dashboard" []).nav = some "/dashboard" ∧
    (signIn "a" "b" "prospect" []).nav = some "/prospect" ∧
    (signIn "" "b" "fna" []).jar = ([] : Jar) ∧
    (signIn "" "b" "fna" []).nav = none := by
  have wfnil : WFJar ([] : Jar) := by
    intro p hp
    exact absurd hp (List.not_mem_nil p)
  have h1 := c2_signin_behavior "a" "b" "fna" [] wfnil
  have h2 := c2_signin_behavior "a" "b" "dashboard" [] wfnil
  have h3 := c2_signin_behavior "a" "b" "prospect" [] wfnil
  have h4 := c2_signin_behavior "" "b" "fna" [] wfnil
  have hne : ("a" : String) ≠ "" := by decide
  have hnp : ("b" : String) ≠ "" := by decide
  exact ⟨(h1.1 hne hnp).1, (h1.1 hne hnp).2.2.1 rfl, (h2.1 hne hnp).2.1 rfl,
    (h3.1 hne hnp).2.2.2 rfl, (h4.2 (Or.inl rfl)).1, (h4.2 (Or.inl rfl)).2⟩

end Canfs

namespace Canfs

/-! ### Normalization helper lemmas -/

theorem jsToLower_eq_empty_iff (s : String) : jsToLower s = "" ↔ s = "" := by
  constructor
  · intro h
    have hd : s.data.map Char.toLower = [] := congrArg String.data h
    exact String.ext (List.map_eq_nil_iff.1 hd)
  · rintro rfl
    rfl

/-- C6: `yesNoNormalize` yields `"Yes"` for trimmed lower-cased `y`/`yes`/`true`,
`"No"` for `n`/`no`/`false`, the empty string for missing or whitespace-only input,
and the trimmed input unchanged otherwise. -/
theorem c6_yesNoNormalize_cases (v : Option String) :
    (jsTrim (v.getD "") = "" → yesNoNormalize v = "") ∧
    ((jsToLower (jsTrim (v.getD "")) = "y" ∨ jsToLower (jsTrim (v.getD "")) = "yes" ∨
        jsToLower (jsTrim (v.getD "")) = "true") → yesNoNormalize v = "Yes") ∧
    ((jsToLower (jsTrim (v.getD "")) = "n" ∨ jsToLower (jsTrim (v.getD "")) = "no" ∨
        jsToLower (jsTrim (v.getD "")) = "false") → yesNoNormalize v = "No") ∧
    (jsTrim (v.getD "") ≠ "" →
      ¬(jsToLower (jsTrim (v.getD "")) = "y" ∨ jsToLower (jsTrim (v.getD "")) = "yes" ∨
        jsToLower (jsTrim (v.getD "")) = "true") →
      ¬(jsToLower (jsTrim (v.getD "")) = "n" ∨ jsToLower (jsTrim (v.getD "")) = "no" ∨
        jsToLower (jsTrim (v.getD "")) = "false") →
      yesNoNormalize v = jsTrim (v.getD "")) := by
  refine ⟨?_, ?_, ?_, ?_⟩
  · intro h
    simp only [yesNoNormalize]
    rw [h]
    decide
  · intro h
    simp only [yesNoNormalize]
    have hne : jsToLower (jsTrim (v.getD "")) ≠ "" := by
      rcases h with h | h | h <;> simp [h]
    rw [if_neg hne, if_pos h]
  · intro h
    simp only [yesNoNormalize]
    have hne : jsToLower (jsTrim (v.getD "")) ≠ "" := by
      rcases h with h | h | h <;> simp [h]
    have hnyes : ¬(jsToLower (jsTrim (v.getD "")) = "y" ∨
        jsToLower (jsTrim (v.getD "")) = "yes" ∨ jsToLower (jsTrim (v.getD "")) = "true") := by
      rcases h with h | h | h <;> simp [h]
    rw [if_neg hne, if_neg hnyes, if_pos h]
  · intro hraw hy hn
    simp only [yesNoNormalize]
    have hne : jsToLower (jsTrim (v.getD "")) ≠ "" :=
      fun h => hraw ((jsToLower_eq_empty_iff _).1 h)
    rw [if_neg hne, if_neg hy, if_neg hn,
      if_neg (fun h => hy (Or.inr (Or.inl h))), if_neg (fun h => hn (Or.inr (Or.inl h)))]

/-- Witness for C6 at the concrete inputs `" Y "`, `"FALSE"`, `none` and `"maybe"`. -/
theorem c6_witness :
    yesNoNormalize (some " Y ") = "Yes" ∧ yesNoNormalize (some "FALSE") = "No" ∧
    yesNoNormalize none = "" ∧ yesNoNormalize (some " maybe ") = "maybe" := by
  have h1 := c6_yesNoNormalize_cases (some " Y ")
  have h2 := c6_yesNoNormalize_cases (some "FALSE")
  have h3 := c6_yesNoNormalize_cases none
  have h4 := c6_yesNoNormalize_cases (some " maybe ")
  refine ⟨h1.2.1 (Or.inl (by decide)), h2.2.2.1 (Or.inr (Or.inr (by decide))),
    h3.1 (by decide), ?_⟩
  have := h4.2.2.2 (by decide) (by decide) (by decide)
  rw [this]
  decide

theorem states_abbr_nodup : (STATES.map StateEntry.abbr).Nodup := by decide

theorem find?_of_nodup_mem {l : List StateEntry} (hnd : (l.map StateEntry.abbr).Nodup)
    {st : StateEntry} (hmem : st ∈ l) {u : String} (hu : st.abbr = u) :
    l.find? (fun e => e.abbr == u) = some st := by
  induction l with
  | nil => cases hmem
  | cons h t ih =>
    rw [List.map_cons, List.nodup_cons] at hnd
    rcases List.mem_cons.1 hmem with he | ht
    · subst he
      simp [List.find?_cons, hu]
    · have habbr : ¬(h.abbr == u) = true := by
        simp only [beq_iff_eq]
        intro hc
        exact hnd.1 (by
          rw [hc, ← hu]
          exact List.mem_map_of_mem StateEntry.abbr ht)
      rw [List.find?_cons]
      rw [Bool.not_eq_true] at habbr
      rw [habbr]
      exact ih hnd.2 ht

/-- Counterexample for C7: the input `"-"` contains a hyphen and the trimmed text
after its last hyphen is empty, yet `stateToName` returns `"-"` (the trimmed input),
not that empty after-hyphen text. -/
theorem c7_counterexample :
    ('-' ∈ (jsTrim "-").data) ∧ lastDashPart (jsTrim "-") = "" ∧
    stateToName (some "-") = "-" ∧ stateToName (some "-") ≠ lastDashPart (jsTrim "-") := by
  decide

/-- C7 (amended): empty input maps to the empty string; input whose trimmed form
contains a hyphen maps to the trimmed text after the last hyphen only when that text
is non-empty; otherwise a trimmed form upper-casing to a state abbreviation maps to
the state's full name, and anything else is returned trimmed and unchanged. -/
theorem c7_stateToName_amended (v : Option String) :
    (jsTrim (v.getD "") = "" → stateToName v = "") ∧
    ('-' ∈ (jsTrim (v.getD "")).data → lastDashPart (jsTrim (v.getD "")) ≠ "" →
      stateToName v = lastDashPart (jsTrim (v.getD ""))) ∧
    (jsTrim (v.getD "") ≠ "" →
      ('-' ∉ (jsTrim (v.getD "")).data ∨ lastDashPart (jsTrim (v.getD "")) = "") →
      ∀ st ∈ STATES, jsToUpper (jsTrim (v.getD "")) = st.abbr →
        stateToName v = st.name) ∧
    (jsTrim (v.getD "") ≠ "" →
      ('-' ∉ (jsTrim (v.getD "")).data ∨ lastDashPart (jsTrim (v.getD "")) = "") →
      (∀ st ∈ STATES, jsToUpper (jsTrim (v.getD "")) ≠ st.abbr) →
      stateToName v = jsTrim (v.getD "")) := by
  refine ⟨?_, ?_, ?_, ?_⟩
  · intro h
    simp only [stateToName]
    rw [if_pos h]
  · intro hdash hpart
    have hraw : jsTrim (v.getD "") ≠ "" := by
      intro h0
      rw [h0] at hdash
      exact absurd hdash (by decide)
    simp only [stateToName]
    rw [if_neg hraw, if_pos ⟨hdash, hpart⟩]
  · intro hraw hfall st hst habbr
    have hcond : ¬('-' ∈ (jsTrim (v.getD "")).data ∧ lastDashPart (jsTrim (v.getD "")) ≠ "") := by
      rcases hfall with h | h
      · exact fun hc => h hc.1
      · exact fun hc => hc.2 h
    simp only [stateToName]
    rw [if_neg hraw, if_neg hcond, find?_of_nodup_mem states_abbr_nodup hst habbr.symm]
  · intro hraw hfall hnone
    have hcond : ¬('-' ∈ (jsTrim (v.getD "")).data ∧ lastDashPart (jsTrim (v.getD "")) ≠ "") := by
      rcases hfall with h | h
      · exact fun hc => h hc.1
      · exact fun hc => hc.2 h
    have hfind : STATES.find? (fun st => st.abbr == jsToUpper (jsTrim (v.getD ""))) = none := by
      rw [List.find?_eq_none]
      intro st hst
      simp only [beq_iff_eq]
      exact fun hc => hnone st hst hc.symm
    simp only [stateToName]
    rw [if_neg hraw, if_neg hcond, hfind]

/-- Witness for C7 (amended) at the concrete inputs `" "`, `"TX - Texas"`, `"tx"`
and `"Narnia"`. -/
theorem c7_witness :
    stateToName (some " ") = "" ∧ stateToName (some "TX - Texas") = "Texas" ∧
    stateToName (some "tx") = "Texas" ∧ stateToName (some "Narnia") = "Narnia" := by
  have h1 := c7_stateToName_amended (some " ")
  have h2 := c7_stateToName_amended (some "TX - Texas")
  have h3 := c7_stateToName_amended (some "tx")
  have h4 := c7_stateToName_amended (some "Narnia")
  refine ⟨h1.1 (by decide), ?_, ?_, ?_⟩
  · have := h2.2.1 (by decide) (by decide)
    rw [this]
    decide
  · exact h3.2.2.1 (by decide) (Or.inl (by decide)) ⟨"TX", "Texas"⟩ (by decide) (by decide)
  · exact h4.2.2.2 (by decide) (Or.inl (by decide)) (by decide)

end Canfs

namespace Canfs

theorem mergeL_perm {α : Type} (r : α → α → Bool) (as bs : List α) :
    (mergeL r as bs).Perm (as ++ bs) := by
  induction as, bs using mergeL.induct (r := r) with
  | case1 ys => simp [mergeL]
  | case2 x xs => simp [mergeL]
  | case3 x xs y ys hr ih =>
    rw [mergeL, if_pos hr]
    simpa using ih.cons x
  | case4 x xs y ys hr ih =>
    rw [mergeL, if_neg hr]
    exact ((ih.cons y).trans List.perm_middle.symm)

theorem msort_perm {α : Type} (r : α → α → Bool) (l : List α) : (msort r l).Perm l := by
  induction l using msort.induct (r := r) with
  | case1 l h => rw [msort, if_pos h]
  | case2 l h ih1 ih2 =>
    rw [msort, if_neg h]
    refine (mergeL_perm r _ _).trans ?_
    refine (ih1.append ih2).trans ?_
    rw [List.take_append_drop]

theorem mergeL_pairwise {α : Type} (r : α → α → Bool) (f : α → Nat)
    (hcompat : ∀ a b, (r a b = true → f a ≤ f b) ∧ (r a b = false → f b ≤ f a))
    (as bs : List α) :
    as.Pairwise (fun x y => f x ≤ f y) → bs.Pairwise (fun x y => f x ≤ f y) →
      (mergeL r as bs).Pairwise (fun x y => f x ≤ f y) := by
  induction as, bs using mergeL.induct (r := r) with
  | case1 ys =>
    intro _ h
    simpa [mergeL] using h
  | case2 x xs =>
    intro h _
    simpa [mergeL] using h
  | case3 x xs y ys hr ih =>
    intro has hbs
    rw [mergeL, if_pos hr]
    rw [List.pairwise_cons] at has ⊢
    refine ⟨?_, ih has.2 hbs⟩
    intro z hz
    rcases List.mem_append.1 ((mergeL_perm r xs (y :: ys)).mem_iff.1 hz) with hz | hz
    · exact has.1 z hz
    · rcases List.mem_cons.1 hz with rfl | hz
      · exact (hcompat x z).1 hr
      · exact Nat.le_trans ((hcompat x y).1 hr) ((List.pairwise_cons.1 hbs).1 z hz)
  | case4 x xs y ys hr ih =>
    intro has hbs
    rw [mergeL, if_neg hr]
    rw [List.pairwise_cons] at hbs ⊢
    refine ⟨?_, ih has hbs.2⟩
    intro z hz
    rcases List.mem_append.1 ((mergeL_perm r (x :: xs) ys).mem_iff.1 hz) with hz | hz
    · rcases List.mem_cons.1 hz with rfl | hz
      · exact (hcompat z y).2 (by simpa using hr)
      · exact Nat.le_trans ((hcompat x y).2 (by simpa using hr))
          ((List.pairwise_cons.1 has).1 z hz)
    · exact hbs.1 z hz

theorem msort_pairwise {α : Type} (r : α → α → Bool) (f : α → Nat)
    (hcompat : ∀ a b, (r a b = true → f a ≤ f b) ∧ (r a b = false → f b ≤ f a))
    (l : List α) : (msort r l).Pairwise (fun x y => f x ≤ f y) := by
  induction l using msort.induct (r := r) with
  | case1 l h =>
    rw [msort, if_pos h]
    match l, h with
    | [], _ => exact List.Pairwise.nil
    | [a], _ => exact List.pairwise_singleton _ a
  | case2 l h ih1 ih2 =>
    rw [msort, if_neg h]
    exact mergeL_pairwise r f hcompat _ _ ih1 ih2

theorem sortLE_compat (lc : String → String → Int) (cfg : SortConfig) (a b : Prospect) :
    (sortLE lc cfg a b = true → rank a ≤ rank b) ∧
    (sortLE lc cfg a b = false → rank b ≤ rank a) := by
  cases hpa : isProspectRec a <;> cases hpb : isProspectRec b <;>
    cases hca : isClosedRec a <;> cases hcb : isClosedRec b <;>
      simp [sortLE, cmpRecords, rank, hpa, hpb, hca, hcb]

theorem rank_le_implies {a b : Prospect} (h : rank a ≤ rank b) :
    (isProspectRec b = true → isProspectRec a = true) ∧
    (isProspectRec a = false → isProspectRec b = false →
      isClosedRec a = true → isClosedRec b = true) := by
  constructor
  · intro hb
    cases hpa : isProspectRec a
    · exfalso
      have h1 : rank b ≤ 1 := by
        cases hc : isClosedRec b <;> simp [rank, hb, hc]
      have h2 : 2 ≤ rank a := by
        cases hc : isClosedRec a <;> simp [rank, hpa, hc]
      omega
    · rfl
  · intro hpa _ hca
    cases hcb : isClosedRec b
    · exfalso
      have h1 : rank a = 3 := by simp [rank, hpa, hca]
      have h2 : rank b ≤ 2 := by
        cases hpb2 : isProspectRec b <;> simp [rank, hpb2, hcb]
      omega
    · rfl

/-- C9: in the displayed order, every `Dissatisfied=Yes/Y and Ambitious=Yes/Y`
record comes before every record without that property, and a closed non-prospect
record never precedes a non-prospect record that is not closed. -/
theorem c9_display_order (lc : String → String → Int) (records : List Prospect)
    (search resFilter : String) (cfg : SortConfig) :
    (filteredPipeline lc records search resFilter cfg).Pairwise
      (fun a b =>
        (isProspectRec b = true → isProspectRec a = true) ∧
        (isProspectRec a = false → isProspectRec b = false →
          isClosedRec a = true → isClosedRec b = true)) := by
  unfold filteredPipeline
  exact (msort_pairwise (sortLE lc cfg) rank (sortLE_compat lc cfg) _).imp rank_le_implies

/-- C5: with a non-blank search string and the result filter at `ALL`, a record is
displayed exactly when it is in the loaded list and its normalized first name, last
name, spouse name or phone contains the normalized search text, or the search text
has a digit and its digit sequence occurs in the phone's digit sequence. -/
theorem c5_search_membership (lc : String → String → Int) (records : List Prospect)
    (search : String) (cfg : SortConfig) (h : jsTrim search ≠ "") (p : Prospect) :
    p ∈ filteredPipeline lc records search "ALL" cfg ↔
      p ∈ records ∧
        (jsIncludes (normText p.first_name) (normText search) = true ∨
         jsIncludes (normText (p.last_name.getD "")) (normText search) = true ∨
         jsIncludes (normText (p.spouse_name.getD "")) (normText search) = true ∨
         jsIncludes (normText (p.phone.getD "")) (normText search) = true ∨
         (digitsOf search ≠ [] ∧ digitsOf search <:+: digitsOf (p.phone.getD ""))) := by
  have heq : filteredPipeline lc records search "ALL" cfg =
      msort (sortLE lc cfg) (records.filter (matchesSearch search)) := by
    unfold filteredPipeline
    rw [if_neg h]
    rfl
  rw [heq, (msort_perm _ _).mem_iff, List.mem_filter]
  have hm : matchesSearch search p = true ↔
      (jsIncludes (normText p.first_name) (normText search) = true ∨
       jsIncludes (normText (p.last_name.getD "")) (normText search) = true ∨
       jsIncludes (normText (p.spouse_name.getD "")) (normText search) = true ∨
       jsIncludes (normText (p.phone.getD "")) (normText search) = true ∨
       (digitsOf search ≠ [] ∧ digitsOf search <:+: digitsOf (p.phone.getD ""))) := by
    unfold matchesSearch
    simp only [Bool.or_eq_true, Bool.and_eq_true, decide_eq_true_iff, List.length_pos]
    tauto
  rw [hm]

/-- Witness for C5: the sample record is found by the search `" al "`. -/
theorem c5_witness :
    sampleRecord ∈ filteredPipeline (fun _ _ => 0) [sampleRecord] " al " "ALL"
      ⟨none, true⟩ := by
  rw [c5_search_membership (fun _ _ => 0) [sampleRecord] " al " ⟨none, true⟩ (by decide)
    sampleRecord]
  exact ⟨List.mem_singleton.2 rfl, Or.inl (by decide)⟩

end Canfs

namespace Canfs

/-! ### Save validation, error banners and pagination -/

theorem requiredFilled_iff (f : ProspectForm) :
    requiredFilled f = true ↔
      (jsTrim f.first_name ≠ "" ∧ jsTrim f.last_name ≠ "" ∧ jsTrim f.phone ≠ "") := by
  unfold requiredFilled
  simp only [Bool.and_eq_true, Bool.not_eq_true', beq_eq_false_iff_ne, ne_eq]
  tauto

/-- C4: with a required field blank after trimming, `saveNew` and `saveEdit` issue no
backend request, leave the loaded list and the form unchanged, and show the
missing-required-fields error; and an insert or update request is only ever issued
when all three required fields are non-empty after trimming. -/
theorem c4_required_fields (oracle : Req → BResp) (st : PState)
    (hsv : st.saving = false) :
    ((jsTrim st.form.first_name = "" ∨ jsTrim st.form.last_name = "" ∨
        jsTrim st.form.phone = "") →
      (saveNew oracle st).2 = [] ∧ (saveNew oracle st).1.prospects = st.prospects ∧
      (saveNew oracle st).1.form = st.form ∧
      (saveNew oracle st).1.errorMsg = some missingMsg ∧
      (saveEdit oracle st).2 = [] ∧ (saveEdit oracle st).1.prospects = st.prospects ∧
      (saveEdit oracle st).1.form = st.form ∧
      (saveEdit oracle st).1.errorMsg = some missingMsg) ∧
    (∀ payload, Req.insertRow payload ∈ (saveNew oracle st).2 →
      jsTrim st.form.first_name ≠ "" ∧ jsTrim st.form.last_name ≠ "" ∧
        jsTrim st.form.phone ≠ "") ∧
    (∀ i payload, Req.updateRow i payload ∈ (saveEdit oracle st).2 →
      jsTrim st.form.first_name ≠ "" ∧ jsTrim st.form.last_name ≠ "" ∧
        jsTrim st.form.phone ≠ "") := by
  refine ⟨?_, ?_, ?_⟩
  · intro hor
    have hreq : requiredFilled st.form = false := by
      rw [← Bool.not_eq_true, requiredFilled_iff]
      tauto
    simp [saveNew, saveEdit, hsv, hreq, setToast]
  · intro payload hmem
    by_cases hreq : requiredFilled st.form = true
    · exact (requiredFilled_iff st.form).1 hreq
    · rw [Bool.not_eq_true] at hreq
      simp [saveNew, hsv, hreq] at hmem
  · intro i payload hmem
    by_cases hreq : requiredFilled st.form = true
    · exact (requiredFilled_iff st.form).1 hreq
    · rw [Bool.not_eq_true] at hreq
      simp [saveEdit, hsv, hreq] at hmem

/-- Witness for C4: the idle state with an empty form. -/
theorem c4_witness :
    (saveNew errOracle sampleState).2 = [] ∧
    (saveNew errOracle sampleState).1.errorMsg = some missingMsg ∧
    (saveEdit errOracle sampleState).2 = [] := by
  have h := (c4_required_fields errOracle sampleState rfl).1 (Or.inl (by decide))
  exact ⟨h.1, h.2.2.2.1, h.2.2.2.2.1⟩

/-- Counterexample for C3: on the dashboard, a backend RPC error is not converted
into any displayed banner text; `callRPC` performs no message update at all. -/
theorem c3_counterexample :
    ¬ ∃ s : String, (callRPC (A := List Prospect) (Except.error "boom")).2 = some s := by
  rintro ⟨s, hs⟩
  exact Option.noConfusion hs

/-- C3 (amended): on the prospect page every failing backend call sets the error
banner to a display string (duplicate-key insert errors map to the fixed
administrator message, all other errors carry the backend message) and schedules
the fixed 5000 ms clear, and the failing request is issued exactly once (no retry);
on the dashboard, `callRPC` swallows the error, returning `null` with no banner
update, a failed inline update surfaces as a blocking alert with no banner and no
timeout, and the top-level load-failure banner is set with no clearing timeout. -/
theorem c3_error_banners (oracle : Req → BResp) (st : PState) (m : String) :
    (oracle .selectAll = .err m →
      (loadProspects oracle st).1.errorMsg = some ("Error loading prospects: " ++ m) ∧
      (loadProspects oracle st).1.timeouts = st.timeouts ++ [5000] ∧
      (loadProspects oracle st).2 = [.selectAll]) ∧
    (st.saving = false → requiredFilled st.form = true →
      oracle (.insertRow (payloadOfForm st.form)) = .err m →
      (saveNew oracle st).1.errorMsg =
        some (if jsIncludes m "duplicate key" || jsIncludes m "prospects_pkey"
          then seqMsg else "Error saving: " ++ m) ∧
      (saveNew oracle st).1.timeouts = st.timeouts ++ [5000] ∧
      (saveNew oracle st).2 = [.insertRow (payloadOfForm st.form)]) ∧
    (∀ i, st.saving = false → requiredFilled st.form = true → st.activeId = some i →
      oracle (.updateRow i (payloadOfForm st.form)) = .err m →
      (saveEdit oracle st).1.errorMsg = some ("Error updating: " ++ m) ∧
      (saveEdit oracle st).1.timeouts = st.timeouts ++ [5000] ∧
      (saveEdit oracle st).2 = [.updateRow i (payloadOfForm st.form)]) ∧
    (∀ i, st.saving = false → st.activeId = some i →
      oracle (.deleteRow i) = .err m →
      (deleteProspect oracle true st).1.errorMsg = some ("Error deleting: " ++ m) ∧
      (deleteProspect oracle true st).1.timeouts = st.timeouts ++ [5000] ∧
      (deleteProspect oracle true st).2 = [.deleteRow i]) ∧
    ((callRPC (A := List Prospect) (Except.error m)).1 = none ∧
      (callRPC (A := List Prospect) (Except.error m)).2 = none) ∧
    handleUpdateRowErrSurface (A := List Prospect) (Except.error m) =
      (some "Failed to update. Please try again.", none, []) ∧
    loadDataCatch true = (some "Error loading data. Please try again.", []) := by
  refine ⟨?_, ?_, ?_, ?_, ⟨rfl, rfl⟩, rfl, rfl⟩
  · intro h
    simp [loadProspects, h, setToast]
  · intro hsv hreq hins
    cases hdup : (jsIncludes m "duplicate key" || jsIncludes m "prospects_pkey") <;>
      simp [saveNew, hsv, hreq, hins, hdup, setToast]
  · intro i hsv hreq hact hupd
    simp [saveEdit, hsv, hreq, hact, hupd, setToast]
  · intro i hsv hact hdel
    simp [deleteProspect, hsv, hact, hdel, setToast]

/-- Witness for C3 (amended): failing oracles (plain and duplicate-key) on
concrete states. -/
theorem c3_witness :
    (loadProspects errOracle sampleState).1.errorMsg =
      some ("Error loading prospects: " ++ "boom") ∧
    (saveNew errOracle sampleStateFilled).1.errorMsg =
      some ("Error saving: " ++ "boom") ∧
    (saveNew dupOracle sampleStateFilled).1.errorMsg = some seqMsg ∧
    (saveNew errOracle sampleStateFilled).2 =
      [Req.insertRow (payloadOfForm sampleStateFilled.form)] ∧
    (callRPC (A := List Prospect) (Except.error "boom")).2 = none := by
  have h1 := (c3_error_banners errOracle sampleState "boom").1 rfl
  have h2 := (c3_error_banners errOracle sampleStateFilled "boom").2.1 rfl (by decide) rfl
  have h2d := (c3_error_banners dupOracle sampleStateFilled
    "duplicate key value violates unique constraint").2.1 rfl (by decide) rfl
  have h3 := (c3_error_banners errOracle sampleState "boom").2.2.2.2.1
  refine ⟨h1.1, ?_, ?_, h2.2.2, h3.2⟩
  · rw [h2.1]
    decide
  · rw [h2d.1]
    decide

theorem pageReachable_pos {p : Nat} (h : PageReachable p) : 1 ≤ p := by
  induction h with
  | start => exact Nat.le_refl 1
  | reset _ _ => exact Nat.le_refl 1
  | prevClick _ _ => exact Nat.le_max_left 1 _
  | nextClick htp _ ih => exact Nat.le_min.2 ⟨htp, Nat.le_add_right_of_le ih⟩

/-- C10: every displayed page holds at most `PAGE_SIZE = 10` rows, the page total is
`max(1, ceil(filtered.length / 10))`, and for every page number reachable through the
pagination controls the effective page lies between 1 and the page total. -/
theorem c10_pagination (filtered : List Prospect) (page : Nat)
    (h : PageReachable page) :
    PAGE_SIZE = 10 ∧
    (pageRows filtered page).length ≤ PAGE_SIZE ∧
    totalPages filtered.length = max 1 ((filtered.length + PAGE_SIZE - 1) / PAGE_SIZE) ∧
    1 ≤ safePage page filtered.length ∧
    safePage page filtered.length ≤ totalPages filtered.length := by
  refine ⟨rfl, ?_, rfl, ?_, Nat.min_le_right _ _⟩
  · exact List.length_take_le _ _
  · exact Nat.le_min.2 ⟨pageReachable_pos h, Nat.le_max_left 1 _⟩

/-- Witness for C10: the empty filtered list on the initial page. -/
theorem c10_witness :
    (pageRows [] 1).length ≤ PAGE_SIZE ∧ 1 ≤ safePage 1 0 ∧
    safePage 1 0 ≤ totalPages 0 := by
  have h := c10_pagination [] 1 PageReachable.start
  exact ⟨h.2.1, h.2.2.2.1, h.2.2.2.2⟩

end Canfs
